import Mathlib

/-!
Verification of the ktop metrics collection and query-utility core.

This file gives a shallow embedding, in Lean 4, of the Go package
`internal/metrics` (collector.go) and `internal/models` (types.go) of the
ktop repository, together with theorems settling the specification claims
about that code.

Modelling conventions:
* Go `int64` / `int` / `int32` values are modelled as `Int` (or `Nat` for
  values that are lengths/counts produced by `len`); none of the claims
  under consideration concerns 64-bit overflow, and the collector performs
  no arithmetic that is intended to wrap.
* Go `float64` percentages are modelled as exact rationals `ℚ`.  The Go
  code computes `float64(cur) / float64(cap) * 100`; the claims are about
  the exact-division contract of that expression.
* Go strings are modelled as Lean `String`; Go's byte-wise lexicographic
  `<` on UTF-8 strings coincides with codepoint-lexicographic order, which
  is the order of `String.data : List Char`.  All string comparisons are
  therefore expressed on `String.data`.  `strings.ToLower` is modelled as
  a character-wise `Char.toLower` (exact for ASCII names).
* Go maps that are only ever read by key lookup (the node/pod usage-sample
  maps) are modelled as functions `String → Option β` built by
  insert-with-overwrite, matching Go map semantics.
* `sort.Slice` is unstable.  For slices of length at most 12 the Go
  runtime (pdqsort, Go ≥ 1.19) runs plain insertion sort with the supplied
  comparator; `sortSlice` below is a faithful functional model of that
  insertion sort (element `i` is sifted left past element `j` exactly when
  `less i j` reports true).  Theorems about the sort are therefore stated
  for lists of length at most 12, where the model provably coincides with
  the code path executed by the Go runtime.
-/

namespace Ktop

/-! ## Sort fields and entity model (internal/models/types.go) -/

/-- SortField from internal/models: an enumeration of the five node sort
fields followed by the five pod sort fields, in source order. -/
inductive SortField where
  | sortNodeName
  | sortNodeCPU
  | sortNodeMemory
  | sortNodeStatus
  | sortNodePods
  | sortPodNamespace
  | sortPodName
  | sortPodCPU
  | sortPodMemory
  | sortPodStatus
deriving DecidableEq

/-- NodeStatus from internal/models: a Go string type with three values. -/
inductive NodeStatus where
  | ready
  | notReady
  | unknown
deriving DecidableEq

/-- The underlying Go string of a NodeStatus value; Go compares these
statuses as strings. -/
def NodeStatus.str : NodeStatus → String
  | .ready => "Ready"
  | .notReady => "NotReady"
  | .unknown => "Unknown"

/-- PodStatus from internal/models: a Go string type with five values. -/
inductive PodStatus where
  | running
  | pending
  | succeeded
  | failed
  | unknown
deriving DecidableEq

/-- The underlying Go string of a PodStatus value. -/
def PodStatus.str : PodStatus → String
  | .running => "Running"
  | .pending => "Pending"
  | .succeeded => "Succeeded"
  | .failed => "Failed"
  | .unknown => "Unknown"

/-- ResourceUsage from internal/models: current usage, capacity
(int64 base units) and a percentage (float64, modelled as ℚ). -/
structure ResourceUsage where
  current : Int := 0
  capacity : Int := 0
  percent : ℚ := 0
deriving DecidableEq

/-- GPUInfo from internal/models. -/
structure GPUInfo where
  count : Int := 0
  memoryUsed : Int := 0
  memoryTotal : Int := 0
  utilization : ℚ := 0
deriving DecidableEq

/-- NodeConditions from internal/models: the four pressure flags. -/
structure NodeConditions where
  memoryPressure : Bool := false
  diskPressure : Bool := false
  pidPressure : Bool := false
  networkUnavail : Bool := false
deriving DecidableEq

/-- Node from internal/models.  `labels` is the Go `map[string]string`,
modelled as an association list (only read by key lookup). -/
structure Node where
  name : String := ""
  status : NodeStatus := .unknown
  cpu : ResourceUsage := {}
  memory : ResourceUsage := {}
  disk : ResourceUsage := {}
  gpu : Option GPUInfo := none
  podCount : Nat := 0
  conditions : NodeConditions := {}
  labels : List (String × String) := []
deriving DecidableEq

/-- Pod from internal/models.  The Go field `Namespace` is rendered as
`ns` because `namespace` is a Lean keyword. -/
structure Pod where
  ns : String := ""
  name : String := ""
  nodeName : String := ""
  status : PodStatus := .unknown
  cpu : Int := 0
  memory : Int := 0
  containerCount : Nat := 0
  restartCount : Int := 0
deriving DecidableEq

/-! ## The sort.Slice model -/

/-- One step of Go's insertion sort: the new element `x` is sifted
leftwards through the already-processed prefix.  The prefix is kept in
reversed order (`acc` head = rightmost processed element), so sifting is
structural recursion: `x` swaps past `y` exactly when `less x y`. -/
def insertRev (less : α → α → Bool) (x : α) : List α → List α
  | [] => [x]
  | y :: ys => if less x y then y :: insertRev less x ys else x :: y :: ys

/-- Tail of the insertion sort: process the remaining elements in order,
maintaining the reversed processed prefix `acc`. -/
def sortSliceAux (less : α → α → Bool) : List α → List α → List α
  | acc, [] => acc.reverse
  | acc, x :: xs => sortSliceAux less (insertRev less x acc) xs

/-- Model of Go's `sort.Slice(s, less)` on the code path taken for
`len(s) ≤ 12`, where the runtime runs plain insertion sort: elements are
taken left to right and each is sifted left past its predecessor `p`
while `less(x, p)` holds. -/
def sortSlice (less : α → α → Bool) (l : List α) : List α :=
  sortSliceAux less [] l

/-- The sort key used by Go's `strings.ToLower` comparisons: the
character data of the string, lowercased character-wise. -/
def lowerKey (s : String) : List Char :=
  s.data.map Char.toLower

/-- A single Boolean comparison of two entities under a sort key, the
building block of every comparator branch in SortNodes and SortPods
(Go computes the corresponding `<` on the projected field). -/
def keyLt {K : Type*} [LinearOrder K] (key : α → K) (a b : α) : Bool :=
  decide (key a < key b)

/-- Boolean equality of two entities under a sort key. -/
def keyEqB {K : Type*} [LinearOrder K] (key : α → K) (a b : α) : Bool :=
  decide (key a = key b)

/-- The comparator closure of SortNodes (collector.go): one `less` per
sort field, with pod-only fields falling into the `default` branch that
compares raw names. -/
def nodeLess (field : SortField) (i j : Node) : Bool :=
  match field with
  | .sortNodeName => keyLt (fun n : Node => lowerKey n.name) i j
  | .sortNodeCPU => keyLt (fun n : Node => n.cpu.percent) i j
  | .sortNodeMemory => keyLt (fun n : Node => n.memory.percent) i j
  | .sortNodeStatus => keyLt (fun n : Node => n.status.str.data) i j
  | .sortNodePods => keyLt (fun n : Node => n.podCount) i j
  | _ => keyLt (fun n : Node => n.name.data) i j

/-- The comparator closure of SortPods (collector.go); node-only fields
fall into the `default` branch comparing raw names. -/
def podLess (field : SortField) (i j : Pod) : Bool :=
  match field with
  | .sortPodNamespace => keyLt (fun p : Pod => lowerKey p.ns) i j
  | .sortPodName => keyLt (fun p : Pod => lowerKey p.name) i j
  | .sortPodCPU => keyLt (fun p : Pod => p.cpu) i j
  | .sortPodMemory => keyLt (fun p : Pod => p.memory) i j
  | .sortPodStatus => keyLt (fun p : Pod => p.status.str.data) i j
  | _ => keyLt (fun p : Pod => p.name.data) i j

/-- SortNodes from collector.go: `sort.Slice` with the field comparator,
inverted (not the input, the comparison) when `ascending` is false. -/
def SortNodes (nodes : List Node) (field : SortField) (ascending : Bool) : List Node :=
  sortSlice (fun i j => if ascending then nodeLess field i j else !(nodeLess field i j)) nodes

/-- SortPods from collector.go, same shape as SortNodes. -/
def SortPods (pods : List Pod) (field : SortField) (ascending : Bool) : List Pod :=
  sortSlice (fun i j => if ascending then podLess field i j else !(podLess field i j)) pods

/-! ## Filter and limit (collector.go), system namespaces (types.go) -/

/-- SystemNamespaces from internal/models: the Go map literal; note that
`default` is present with value `false`. -/
def SystemNamespaces : List (String × Bool) :=
  [("kube-system", true), ("kube-public", true), ("kube-node-lease", true),
   ("default", false)]

/-- IsSystemNamespace from internal/models: Go map indexing, which yields
the zero value `false` for absent keys. -/
def IsSystemNamespace (ns : String) : Bool :=
  match SystemNamespaces.find? (fun p => p.1 == ns) with
  | some p => p.2
  | none => false

/-- FilterPods from collector.go: drop a pod when a namespace filter is
set and does not match, or when it is in a system namespace and system
namespaces are hidden. -/
def FilterPods : List Pod → String → Bool → List Pod
  | [], _, _ => []
  | pod :: rest, ns, showSystem =>
    if ns != "" && pod.ns != ns then FilterPods rest ns showSystem
    else if !showSystem && IsSystemNamespace pod.ns then FilterPods rest ns showSystem
    else pod :: FilterPods rest ns showSystem

/-- LimitPods from collector.go.  The Go parameter is an `int`; every
call site passes a non-negative limit (a negative limit would make the
Go slice expression `pods[:limit]` panic), so it is modelled as `Nat`. -/
def LimitPods (pods : List Pod) (limit : Nat) : List Pod :=
  if pods.length ≤ limit then pods else pods.take limit


/-! ### Generic facts about the sortSlice model -/

theorem insertRev_perm (less : α → α → Bool) (x : α) (l : List α) :
    (insertRev less x l).Perm (x :: l) := by
  induction l with
  | nil => simp [insertRev]
  | cons y ys ih =>
    cases hxy : less x y with
    | true =>
      simp only [insertRev, hxy, if_true]
      exact (ih.cons y).trans (List.Perm.swap x y ys)
    | false =>
      simp [insertRev, hxy]

theorem insertRev_pairwise {s : α → α → Prop} (less : α → α → Bool)
    (hA : ∀ a b, less a b = true → s a b)
    (hB : ∀ a b, less a b = false → s b a)
    (hT : Transitive s) (x : α) :
    ∀ acc : List α, acc.Pairwise (fun a b => s b a) →
      (insertRev less x acc).Pairwise (fun a b => s b a) := by
  intro acc
  induction acc with
  | nil => intro _; simp [insertRev]
  | cons y ys ih =>
    intro h
    rw [List.pairwise_cons] at h
    obtain ⟨hy, hys⟩ := h
    cases hxy : less x y with
    | true =>
      simp only [insertRev, hxy, if_true]
      rw [List.pairwise_cons]
      refine ⟨?_, ih hys⟩
      intro z hz
      have hz2 : z = x ∨ z ∈ ys := by
        simpa using (insertRev_perm less x ys).mem_iff.mp hz
      rcases hz2 with h | h
      · rw [h]; exact hA x y hxy
      · exact hy z h
    | false =>
      simp only [insertRev, hxy, Bool.false_eq_true, if_false]
      rw [List.pairwise_cons]
      refine ⟨?_, List.pairwise_cons.mpr ⟨hy, hys⟩⟩
      intro z hz
      rcases List.mem_cons.mp hz with h | h
      · rw [h]; exact hB x y hxy
      · exact hT (hy z h) (hB x y hxy)

theorem sortSliceAux_perm (less : α → α → Bool) :
    ∀ (l acc : List α), (sortSliceAux less acc l).Perm (acc.reverse ++ l) := by
  intro l
  induction l with
  | nil => intro acc; simp [sortSliceAux]
  | cons x xs ih =>
    intro acc
    simp only [sortSliceAux]
    refine (ih (insertRev less x acc)).trans ?_
    have hL : ((insertRev less x acc).reverse ++ xs).Perm (x :: (acc ++ xs)) :=
      List.Perm.append_right xs
        ((List.reverse_perm (insertRev less x acc)).trans (insertRev_perm less x acc))
    have hR : (acc.reverse ++ (x :: xs)).Perm (x :: (acc ++ xs)) :=
      List.perm_middle.trans ((List.Perm.append_right xs (List.reverse_perm acc)).cons x)
    exact hL.trans hR.symm

theorem sortSlice_perm (less : α → α → Bool) (l : List α) :
    (sortSlice less l).Perm l := by
  simpa [sortSlice] using sortSliceAux_perm less l []

theorem sortSliceAux_pairwise {s : α → α → Prop} (less : α → α → Bool)
    (hA : ∀ a b, less a b = true → s a b)
    (hB : ∀ a b, less a b = false → s b a)
    (hT : Transitive s) :
    ∀ (l acc : List α), acc.Pairwise (fun a b => s b a) →
      (sortSliceAux less acc l).Pairwise s := by
  intro l
  induction l with
  | nil =>
    intro acc h
    simpa [sortSliceAux, List.pairwise_reverse] using h
  | cons x xs ih =>
    intro acc h
    exact ih _ (insertRev_pairwise less hA hB hT x acc h)

theorem sortSlice_pairwise {s : α → α → Prop} (less : α → α → Bool)
    (hA : ∀ a b, less a b = true → s a b)
    (hB : ∀ a b, less a b = false → s b a)
    (hT : Transitive s) (l : List α) :
    (sortSlice less l).Pairwise s :=
  sortSliceAux_pairwise less hA hB hT l [] (by simp)

theorem insertRev_filter {less : α → α → Bool}
    (hnt : ∀ a b c, less a b = false → less b c = false → less a c = false)
    (q x : α) :
    ∀ acc : List α,
      (insertRev less x acc).filter (fun a => !less a q && !less q a) =
        if !less x q && !less q x then
          x :: acc.filter (fun a => !less a q && !less q a)
        else acc.filter (fun a => !less a q && !less q a) := by
  intro acc
  induction acc with
  | nil =>
    cases h : (!less x q && !less q x) <;>
      simp [insertRev, List.filter_cons, h]
  | cons y ys ih =>
    cases hxy : less x y with
    | false =>
      simp only [insertRev, hxy, Bool.false_eq_true, if_false]
      simp [List.filter_cons]
    | true =>
      simp only [insertRev, hxy, if_true]
      by_cases hx : (!less x q && !less q x) = true
      · have hy : (!less y q && !less q y) = false := by
          simp only [Bool.and_eq_true, Bool.not_eq_true'] at hx
          by_contra hcon
          rw [Bool.not_eq_false] at hcon
          simp only [Bool.and_eq_true, Bool.not_eq_true'] at hcon
          have hfalse := hnt x q y hx.1 hcon.2
          simp [hfalse] at hxy
        simp [List.filter_cons, hy, ih, hx]
      · rw [Bool.not_eq_true] at hx
        simp [List.filter_cons, ih, hx]

theorem sortSliceAux_filter {less : α → α → Bool}
    (hnt : ∀ a b c, less a b = false → less b c = false → less a c = false)
    (q : α) :
    ∀ (l acc : List α),
      (sortSliceAux less acc l).filter (fun a => !less a q && !less q a) =
        (acc.filter (fun a => !less a q && !less q a)).reverse ++
          l.filter (fun a => !less a q && !less q a) := by
  intro l
  induction l with
  | nil => intro acc; simp [sortSliceAux, List.filter_reverse]
  | cons x xs ih =>
    intro acc
    simp only [sortSliceAux]
    rw [ih]
    rw [insertRev_filter hnt q x acc]
    by_cases hx : (!less x q && !less q x) = true
    · simp [hx, List.filter_cons]
    · rw [Bool.not_eq_true] at hx
      simp [hx, List.filter_cons]

theorem sortSlice_filter_tie {less : α → α → Bool}
    (hnt : ∀ a b c, less a b = false → less b c = false → less a c = false)
    (q : α) (l : List α) :
    (sortSlice less l).filter (fun a => !less a q && !less q a) =
      l.filter (fun a => !less a q && !less q a) := by
  simpa [sortSlice] using sortSliceAux_filter hnt q l []

theorem sortSlice_asc_desc {less : α → α → Bool}
    (hasym : ∀ a b, less a b = true → less b a = false)
    (hnt : ∀ a b c, less a b = false → less b c = false → less a c = false)
    (l : List α)
    (hcomp : l.Pairwise (fun a b => less a b = true ∨ less b a = true)) :
    sortSlice (fun a b => !less a b) (sortSlice less l) = (sortSlice less l).reverse := by
  have perm1 : (sortSlice less l).Perm l := sortSlice_perm less l
  have perm2 : (sortSlice (fun a b => !less a b) (sortSlice less l)).Perm (sortSlice less l) :=
    sortSlice_perm _ _
  have P1 : (sortSlice less l).Pairwise (fun a b => less b a = false) :=
    sortSlice_pairwise less (fun a b h => hasym a b h) (fun a b h => h)
      (fun a b c hab hbc => hnt c b a hbc hab) l
  have P2 : (sortSlice (fun a b => !less a b) (sortSlice less l)).Pairwise
      (fun a b => less a b = false) :=
    sortSlice_pairwise (fun a b => !less a b)
      (fun a b h => by rwa [Bool.not_eq_true'] at h)
      (fun a b h => hasym a b (by rwa [Bool.not_eq_false'] at h))
      (fun a b c hab hbc => hnt a b c hab hbc) (sortSlice less l)
  have P2r : (sortSlice (fun a b => !less a b) (sortSlice less l)).reverse.Pairwise
      (fun a b => less b a = false) := by
    rw [List.pairwise_reverse]
    exact P2
  have hsymm : ∀ {x y : α}, (less x y = true ∨ less y x = true) →
      (less y x = true ∨ less x y = true) := fun h => h.symm
  have hcomp1 : (sortSlice less l).Pairwise (fun a b => less a b = true ∨ less b a = true) :=
    (perm1.pairwise_iff hsymm).mpr hcomp
  have permr : (sortSlice (fun a b => !less a b) (sortSlice less l)).reverse.Perm
      (sortSlice less l) :=
    (List.reverse_perm _).trans perm2
  have hcomp2 : (sortSlice (fun a b => !less a b) (sortSlice less l)).reverse.Pairwise
      (fun a b => less a b = true ∨ less b a = true) :=
    (permr.pairwise_iff hsymm).mpr hcomp1
  have S1 : (sortSlice less l).Pairwise (fun a b => less a b = true) :=
    (P1.and hcomp1).imp (fun h => h.2.resolve_right (by simp [h.1]))
  have S2r : (sortSlice (fun a b => !less a b) (sortSlice less l)).reverse.Pairwise
      (fun a b => less a b = true) :=
    (P2r.and hcomp2).imp (fun h => h.2.resolve_right (by simp [h.1]))
  have heq : (sortSlice (fun a b => !less a b) (sortSlice less l)).reverse = sortSlice less l :=
    @List.eq_of_perm_of_sorted α (fun a b => less a b = true)
      ⟨fun a b h h' => absurd h' (by simp [hasym a b h])⟩ _ _ permr S2r S1
  calc sortSlice (fun a b => !less a b) (sortSlice less l)
      = (sortSlice (fun a b => !less a b) (sortSlice less l)).reverse.reverse :=
        (List.reverse_reverse _).symm
    _ = (sortSlice less l).reverse := by rw [heq]

theorem sortSlice_desc_asc {less : α → α → Bool}
    (hasym : ∀ a b, less a b = true → less b a = false)
    (hnt : ∀ a b c, less a b = false → less b c = false → less a c = false)
    (l : List α)
    (hcomp : l.Pairwise (fun a b => less a b = true ∨ less b a = true)) :
    sortSlice less (sortSlice (fun a b => !less a b) l)
      = (sortSlice (fun a b => !less a b) l).reverse := by
  have perm1 : (sortSlice (fun a b => !less a b) l).Perm l := sortSlice_perm _ l
  have perm2 : (sortSlice less (sortSlice (fun a b => !less a b) l)).Perm
      (sortSlice (fun a b => !less a b) l) := sortSlice_perm _ _
  have P1 : (sortSlice (fun a b => !less a b) l).Pairwise (fun a b => less a b = false) :=
    sortSlice_pairwise (fun a b => !less a b)
      (fun a b h => by rwa [Bool.not_eq_true'] at h)
      (fun a b h => hasym a b (by rwa [Bool.not_eq_false'] at h))
      (fun a b c hab hbc => hnt a b c hab hbc) l
  have P1r : (sortSlice (fun a b => !less a b) l).reverse.Pairwise
      (fun a b => less b a = false) := by
    rw [List.pairwise_reverse]
    exact P1
  have P2 : (sortSlice less (sortSlice (fun a b => !less a b) l)).Pairwise
      (fun a b => less b a = false) :=
    sortSlice_pairwise less (fun a b h => hasym a b h) (fun a b h => h)
      (fun a b c hab hbc => hnt c b a hbc hab) _
  have hsymm : ∀ {x y : α}, (less x y = true ∨ less y x = true) →
      (less y x = true ∨ less x y = true) := fun h => h.symm
  have hcomp1 : (sortSlice (fun a b => !less a b) l).Pairwise
      (fun a b => less a b = true ∨ less b a = true) :=
    (perm1.pairwise_iff hsymm).mpr hcomp
  have hcompr : (sortSlice (fun a b => !less a b) l).reverse.Pairwise
      (fun a b => less a b = true ∨ less b a = true) :=
    (((List.reverse_perm _).pairwise_iff hsymm)).mpr hcomp1
  have hcomp2 : (sortSlice less (sortSlice (fun a b => !less a b) l)).Pairwise
      (fun a b => less a b = true ∨ less b a = true) :=
    (perm2.pairwise_iff hsymm).mpr hcomp1
  have S1r : (sortSlice (fun a b => !less a b) l).reverse.Pairwise
      (fun a b => less a b = true) :=
    (P1r.and hcompr).imp (fun h => h.2.resolve_right (by simp [h.1]))
  have S2 : (sortSlice less (sortSlice (fun a b => !less a b) l)).Pairwise
      (fun a b => less a b = true) :=
    (P2.and hcomp2).imp (fun h => h.2.resolve_right (by simp [h.1]))
  have permr : (sortSlice less (sortSlice (fun a b => !less a b) l)).Perm
      (sortSlice (fun a b => !less a b) l).reverse :=
    perm2.trans (List.reverse_perm _).symm
  exact @List.eq_of_perm_of_sorted α (fun a b => less a b = true)
    ⟨fun a b h h' => absurd h' (by simp [hasym a b h])⟩ _ _ permr S2 S1r

/-! ### Key-based comparators -/

theorem keyLt_asym {K : Type*} [LinearOrder K] (key : α → K) :
    ∀ a b : α, keyLt key a b = true → keyLt key b a = false := by
  intro a b h
  rw [keyLt, decide_eq_true_eq] at h
  rw [keyLt]
  exact decide_eq_false (lt_asymm h)

theorem keyLt_negtrans {K : Type*} [LinearOrder K] (key : α → K) :
    ∀ a b c : α, keyLt key a b = false → keyLt key b c = false →
      keyLt key a c = false := by
  intro a b c h1 h2
  rw [keyLt, decide_eq_false_iff_not] at h1 h2
  rw [keyLt]
  exact decide_eq_false
    (fun hac => absurd hac (not_lt.mpr (le_trans (not_lt.mp h2) (not_lt.mp h1))))

theorem keyLt_comp {K : Type*} [LinearOrder K] (key : α → K) :
    ∀ a b : α, keyEqB key a b = false →
      keyLt key a b = true ∨ keyLt key b a = true := by
  intro a b h
  rw [keyEqB, decide_eq_false_iff_not] at h
  rcases lt_trichotomy (key a) (key b) with hlt | heq | hgt
  · exact Or.inl (by rw [keyLt]; exact decide_eq_true hlt)
  · exact absurd heq h
  · exact Or.inr (by rw [keyLt]; exact decide_eq_true hgt)

theorem keyLt_tie {K : Type*} [LinearOrder K] (key : α → K) (p q : α) :
    (!keyLt key p q && !keyLt key q p) = keyEqB key p q := by
  rw [keyLt, keyLt, keyEqB]
  rcases lt_trichotomy (key p) (key q) with h | h | h
  · simp [h, ne_of_lt h, lt_asymm h]
  · simp [h, lt_irrefl]
  · simp [h, ne_of_gt h, lt_asymm h]

/-! ### Per-field sort keys -/

/-- The sort key equality induced by each pod sort field: two pods compare
equal under the field comparator exactly when these keys coincide. -/
def podKeyEq (field : SortField) (p q : Pod) : Bool :=
  match field with
  | .sortPodNamespace => keyEqB (fun p : Pod => lowerKey p.ns) p q
  | .sortPodName => keyEqB (fun p : Pod => lowerKey p.name) p q
  | .sortPodCPU => keyEqB (fun p : Pod => p.cpu) p q
  | .sortPodMemory => keyEqB (fun p : Pod => p.memory) p q
  | .sortPodStatus => keyEqB (fun p : Pod => p.status.str.data) p q
  | _ => keyEqB (fun p : Pod => p.name.data) p q

/-- The sort key equality induced by each node sort field. -/
def nodeKeyEq (field : SortField) (p q : Node) : Bool :=
  match field with
  | .sortNodeName => keyEqB (fun n : Node => lowerKey n.name) p q
  | .sortNodeCPU => keyEqB (fun n : Node => n.cpu.percent) p q
  | .sortNodeMemory => keyEqB (fun n : Node => n.memory.percent) p q
  | .sortNodeStatus => keyEqB (fun n : Node => n.status.str.data) p q
  | .sortNodePods => keyEqB (fun n : Node => n.podCount) p q
  | _ => keyEqB (fun n : Node => n.name.data) p q

theorem podLess_asym (field : SortField) :
    ∀ a b : Pod, podLess field a b = true → podLess field b a = false := by
  cases field <;>
    first
      | exact keyLt_asym (fun p : Pod => lowerKey p.ns)
      | exact keyLt_asym (fun p : Pod => lowerKey p.name)
      | exact keyLt_asym (fun p : Pod => p.cpu)
      | exact keyLt_asym (fun p : Pod => p.memory)
      | exact keyLt_asym (fun p : Pod => p.status.str.data)
      | exact keyLt_asym (fun p : Pod => p.name.data)

theorem podLess_negtrans (field : SortField) :
    ∀ a b c : Pod, podLess field a b = false → podLess field b c = false →
      podLess field a c = false := by
  cases field <;>
    first
      | exact keyLt_negtrans (fun p : Pod => lowerKey p.ns)
      | exact keyLt_negtrans (fun p : Pod => lowerKey p.name)
      | exact keyLt_negtrans (fun p : Pod => p.cpu)
      | exact keyLt_negtrans (fun p : Pod => p.memory)
      | exact keyLt_negtrans (fun p : Pod => p.status.str.data)
      | exact keyLt_negtrans (fun p : Pod => p.name.data)

theorem podLess_comp (field : SortField) :
    ∀ a b : Pod, podKeyEq field a b = false →
      podLess field a b = true ∨ podLess field b a = true := by
  cases field <;>
    first
      | exact keyLt_comp (fun p : Pod => lowerKey p.ns)
      | exact keyLt_comp (fun p : Pod => lowerKey p.name)
      | exact keyLt_comp (fun p : Pod => p.cpu)
      | exact keyLt_comp (fun p : Pod => p.memory)
      | exact keyLt_comp (fun p : Pod => p.status.str.data)
      | exact keyLt_comp (fun p : Pod => p.name.data)

theorem podLess_tie (field : SortField) (p q : Pod) :
    (!podLess field p q && !podLess field q p) = podKeyEq field p q := by
  cases field <;>
    first
      | exact keyLt_tie (fun p : Pod => lowerKey p.ns) p q
      | exact keyLt_tie (fun p : Pod => lowerKey p.name) p q
      | exact keyLt_tie (fun p : Pod => p.cpu) p q
      | exact keyLt_tie (fun p : Pod => p.memory) p q
      | exact keyLt_tie (fun p : Pod => p.status.str.data) p q
      | exact keyLt_tie (fun p : Pod => p.name.data) p q

theorem nodeLess_asym (field : SortField) :
    ∀ a b : Node, nodeLess field a b = true → nodeLess field b a = false := by
  cases field <;>
    first
      | exact keyLt_asym (fun n : Node => lowerKey n.name)
      | exact keyLt_asym (fun n : Node => n.cpu.percent)
      | exact keyLt_asym (fun n : Node => n.memory.percent)
      | exact keyLt_asym (fun n : Node => n.status.str.data)
      | exact keyLt_asym (fun n : Node => n.podCount)
      | exact keyLt_asym (fun n : Node => n.name.data)

theorem nodeLess_negtrans (field : SortField) :
    ∀ a b c : Node, nodeLess field a b = false → nodeLess field b c = false →
      nodeLess field a c = false := by
  cases field <;>
    first
      | exact keyLt_negtrans (fun n : Node => lowerKey n.name)
      | exact keyLt_negtrans (fun n : Node => n.cpu.percent)
      | exact keyLt_negtrans (fun n : Node => n.memory.percent)
      | exact keyLt_negtrans (fun n : Node => n.status.str.data)
      | exact keyLt_negtrans (fun n : Node => n.podCount)
      | exact keyLt_negtrans (fun n : Node => n.name.data)

theorem nodeLess_comp (field : SortField) :
    ∀ a b : Node, nodeKeyEq field a b = false →
      nodeLess field a b = true ∨ nodeLess field b a = true := by
  cases field <;>
    first
      | exact keyLt_comp (fun n : Node => lowerKey n.name)
      | exact keyLt_comp (fun n : Node => n.cpu.percent)
      | exact keyLt_comp (fun n : Node => n.memory.percent)
      | exact keyLt_comp (fun n : Node => n.status.str.data)
      | exact keyLt_comp (fun n : Node => n.podCount)
      | exact keyLt_comp (fun n : Node => n.name.data)

theorem nodeLess_tie (field : SortField) (p q : Node) :
    (!nodeLess field p q && !nodeLess field q p) = nodeKeyEq field p q := by
  cases field <;>
    first
      | exact keyLt_tie (fun n : Node => lowerKey n.name) p q
      | exact keyLt_tie (fun n : Node => n.cpu.percent) p q
      | exact keyLt_tie (fun n : Node => n.memory.percent) p q
      | exact keyLt_tie (fun n : Node => n.status.str.data) p q
      | exact keyLt_tie (fun n : Node => n.podCount) p q
      | exact keyLt_tie (fun n : Node => n.name.data) p q


/-! ## Claims C2 and C9: sorting -/

/-- Helper for C9: raw-name insertion sort (the `default` comparator
branch shared by all unrecognized fields) permutes its input and orders
it by raw byte-wise name, ascending for the plain comparator and
descending for the inverted one. -/
theorem rawNameSortFacts (nodes : List Node) :
    (sortSlice (keyLt (fun n : Node => n.name.data)) nodes).Perm nodes
    ∧ (sortSlice (keyLt (fun n : Node => n.name.data)) nodes).Pairwise
        (fun a b => a.name.data ≤ b.name.data)
    ∧ (sortSlice (fun i j => !keyLt (fun n : Node => n.name.data) i j) nodes).Perm nodes
    ∧ (sortSlice (fun i j => !keyLt (fun n : Node => n.name.data) i j) nodes).Pairwise
        (fun a b => b.name.data ≤ a.name.data) := by
  refine ⟨sortSlice_perm _ _, ?_, sortSlice_perm _ _, ?_⟩
  · apply sortSlice_pairwise (keyLt (fun n : Node => n.name.data))
    · intro a b h
      rw [keyLt, decide_eq_true_eq] at h
      exact le_of_lt h
    · intro a b h
      rw [keyLt, decide_eq_false_iff_not] at h
      exact le_of_not_lt h
    · intro a b c hab hbc
      exact le_trans hab hbc
  · apply sortSlice_pairwise (fun i j => !keyLt (fun n : Node => n.name.data) i j)
    · intro a b h
      rw [Bool.not_eq_true', keyLt, decide_eq_false_iff_not] at h
      exact le_of_not_lt h
    · intro a b h
      rw [Bool.not_eq_false', keyLt, decide_eq_true_eq] at h
      exact le_of_lt h
    · intro a b c hab hbc
      exact le_trans hbc hab

/-- Helper for C9, pod side: the raw-name insertion sort that every
unrecognized field reaching SortPods' `default` branch runs, again with
the direction flag applied to the comparison. -/
theorem rawNameSortFactsPods (pods : List Pod) :
    (sortSlice (keyLt (fun p : Pod => p.name.data)) pods).Perm pods
    ∧ (sortSlice (keyLt (fun p : Pod => p.name.data)) pods).Pairwise
        (fun a b => a.name.data ≤ b.name.data)
    ∧ (sortSlice (fun i j => !keyLt (fun p : Pod => p.name.data) i j) pods).Perm pods
    ∧ (sortSlice (fun i j => !keyLt (fun p : Pod => p.name.data) i j) pods).Pairwise
        (fun a b => b.name.data ≤ a.name.data) := by
  refine ⟨sortSlice_perm _ _, ?_, sortSlice_perm _ _, ?_⟩
  · apply sortSlice_pairwise (keyLt (fun p : Pod => p.name.data))
    · intro a b h
      rw [keyLt, decide_eq_true_eq] at h
      exact le_of_lt h
    · intro a b h
      rw [keyLt, decide_eq_false_iff_not] at h
      exact le_of_not_lt h
    · intro a b c hab hbc
      exact le_trans hab hbc
  · apply sortSlice_pairwise (fun i j => !keyLt (fun p : Pod => p.name.data) i j)
    · intro a b h
      rw [Bool.not_eq_true', keyLt, decide_eq_false_iff_not] at h
      exact le_of_not_lt h
    · intro a b h
      rw [Bool.not_eq_false', keyLt, decide_eq_true_eq] at h
      exact le_of_lt h
    · intro a b c hab hbc
      exact le_trans hbc hab

/-- The node sort fields that SortNodes recognizes; every other field
value reaches its `default` branch. -/
def recognizedNodeField : SortField → Bool
  | .sortNodeName => true
  | .sortNodeCPU => true
  | .sortNodeMemory => true
  | .sortNodeStatus => true
  | .sortNodePods => true
  | _ => false

/-- The pod sort fields that SortPods recognizes; every other field
value reaches its `default` branch. -/
def recognizedPodField : SortField → Bool
  | .sortPodNamespace => true
  | .sortPodName => true
  | .sortPodCPU => true
  | .sortPodMemory => true
  | .sortPodStatus => true
  | _ => false

/-- Claim C2 (amended).  For lists of at most 12 entities (the regime in
which Go `sort.Slice` provably runs plain insertion sort), sorting in
either direction and then sorting the result with the opposite direction
on the same field yields the exact reverse order when all sort keys are
distinct, and entities with equal keys keep their relative input order
under the ascending direction.  (The original claim also asserted tie
stability under the descending direction; that part is refuted by
`claim_C2_counterexample`.) -/
theorem claim_C2_sort_roundtrip_stability (field : SortField)
    (pods : List Pod) (nodes : List Node)
    (hp : pods.length ≤ 12) (hn : nodes.length ≤ 12) :
    (∀ asc : Bool, pods.Pairwise (fun a b => podKeyEq field a b = false) →
      SortPods (SortPods pods field asc) field (!asc) = (SortPods pods field asc).reverse)
    ∧ (∀ q : Pod,
        (SortPods pods field true).filter (fun p => podKeyEq field p q) =
          pods.filter (fun p => podKeyEq field p q))
    ∧ (∀ asc : Bool, nodes.Pairwise (fun a b => nodeKeyEq field a b = false) →
      SortNodes (SortNodes nodes field asc) field (!asc) = (SortNodes nodes field asc).reverse)
    ∧ (∀ q : Node,
        (SortNodes nodes field true).filter (fun n => nodeKeyEq field n q) =
          nodes.filter (fun n => nodeKeyEq field n q)) := by
  refine ⟨?_, ?_, ?_, ?_⟩
  · intro asc hdist
    have hcomp : pods.Pairwise
        (fun a b => podLess field a b = true ∨ podLess field b a = true) :=
      hdist.imp (fun h => podLess_comp field _ _ h)
    cases asc
    · exact sortSlice_desc_asc (podLess_asym field) (podLess_negtrans field) pods hcomp
    · exact sortSlice_asc_desc (podLess_asym field) (podLess_negtrans field) pods hcomp
  · intro q
    have h := sortSlice_filter_tie (podLess_negtrans field) q pods
    have hf : ∀ p : Pod, (!podLess field p q && !podLess field q p) = podKeyEq field p q :=
      fun p => podLess_tie field p q
    simp only [hf] at h
    exact h
  · intro asc hdist
    have hcomp : nodes.Pairwise
        (fun a b => nodeLess field a b = true ∨ nodeLess field b a = true) :=
      hdist.imp (fun h => nodeLess_comp field _ _ h)
    cases asc
    · exact sortSlice_desc_asc (nodeLess_asym field) (nodeLess_negtrans field) nodes hcomp
    · exact sortSlice_asc_desc (nodeLess_asym field) (nodeLess_negtrans field) nodes hcomp
  · intro q
    have h := sortSlice_filter_tie (nodeLess_negtrans field) q nodes
    have hf : ∀ p : Node, (!nodeLess field p q && !nodeLess field q p) = nodeKeyEq field p q :=
      fun p => nodeLess_tie field p q
    simp only [hf] at h
    exact h

/-- Fixture pods for the C2 counterexample: equal CPU keys, different
names. -/
def c2a : Pod := { name := "alpha", cpu := 5 }

/-- Second fixture pod for the C2 counterexample. -/
def c2b : Pod := { name := "beta", cpu := 5 }

/-- Claim C2, counterexample to the claim as stated: two distinct pods
with equal CPU keys, given in order [c2a, c2b], come out as [c2b, c2a]
from a descending CPU sort — equal-key entities do not keep their
relative input order under the descending direction (sort.Slice runs
insertion sort with the inverted, hence non-strict, comparator, which
swaps ties). -/
theorem claim_C2_counterexample :
    SortPods [c2a, c2b] SortField.sortPodCPU false = [c2b, c2a]
      ∧ c2a.cpu = c2b.cpu ∧ c2a ≠ c2b := by decide

/-- Fixture pod with CPU 1 for the C2 witness. -/
def c2c : Pod := { name := "gamma", cpu := 1 }

/-- Fixture pod with CPU 2 for the C2 witness. -/
def c2d : Pod := { name := "delta", cpu := 2 }

/-- Claim C2, witness: the amended theorem instantiated at a concrete
two-pod list with distinct CPU keys. -/
theorem claim_C2_witness :
    SortPods (SortPods [c2c, c2d] SortField.sortPodCPU true) SortField.sortPodCPU false
        = (SortPods [c2c, c2d] SortField.sortPodCPU true).reverse
    ∧ (SortPods [c2c, c2d] SortField.sortPodCPU true).filter
          (fun p => podKeyEq SortField.sortPodCPU p c2c)
        = [c2c, c2d].filter (fun p => podKeyEq SortField.sortPodCPU p c2c) := by
  have h := claim_C2_sort_roundtrip_stability SortField.sortPodCPU [c2c, c2d] []
    (by decide) (by decide)
  exact ⟨h.1 true (by decide), h.2.1 c2c⟩

/-- Claim C9 (amended).  A sort field outside the set recognized by
SortNodes (respectively SortPods) reaches that function's `default`
branch, which compares raw (case-sensitive) names — but the direction
flag is still applied to that comparison: with ascending=true the result
is in raw-name ascending order, with ascending=false it is in raw-name
descending order (for lists of at most 12 entities, where sort.Slice
runs insertion sort).  (The original "regardless of the direction flag"
is refuted by `claim_C9_counterexample`.) -/
theorem claim_C9_unknown_field (nodes : List Node) (pods : List Pod) (field : SortField)
    (hn : nodes.length ≤ 12) (hp : pods.length ≤ 12) :
    (recognizedNodeField field = false →
      (SortNodes nodes field true).Perm nodes
      ∧ (SortNodes nodes field true).Pairwise (fun a b => a.name.data ≤ b.name.data)
      ∧ (SortNodes nodes field false).Perm nodes
      ∧ (SortNodes nodes field false).Pairwise (fun a b => b.name.data ≤ a.name.data))
    ∧ (recognizedPodField field = false →
      (SortPods pods field true).Perm pods
      ∧ (SortPods pods field true).Pairwise (fun a b => a.name.data ≤ b.name.data)
      ∧ (SortPods pods field false).Perm pods
      ∧ (SortPods pods field false).Pairwise (fun a b => b.name.data ≤ a.name.data)) := by
  constructor
  · intro hf
    cases field <;>
      first
        | exact absurd hf (by decide)
        | exact rawNameSortFacts nodes
  · intro hf
    cases field <;>
      first
        | exact absurd hf (by decide)
        | exact rawNameSortFactsPods pods

/-- Fixture node "alpha" for the C9 counterexample and witness. -/
def c9a : Node := { name := "alpha" }

/-- Fixture node "beta" for the C9 counterexample and witness. -/
def c9b : Node := { name := "beta" }

/-- Claim C9, counterexample to the claim as stated: sorting two nodes
by the unrecognized field sortPodCPU with ascending=false yields
name-descending order [c9b, c9a], not the claimed name-ascending order —
the direction flag is applied by the default branch too. -/
theorem claim_C9_counterexample :
    SortNodes [c9a, c9b] SortField.sortPodCPU false = [c9b, c9a]
      ∧ c9a.name.data < c9b.name.data ∧ c9a ≠ c9b := by decide

/-- Fixture pod "palpha" for the C9 witness. -/
def c9p1 : Pod := { name := "palpha" }

/-- Fixture pod "pbeta" for the C9 witness. -/
def c9p2 : Pod := { name := "pbeta" }

/-- Claim C9, witness: the amended theorem at a concrete two-node list
with the field sortPodName (unrecognized by SortNodes) and at a concrete
two-pod list with the field sortNodeCPU (unrecognized by SortPods),
both ascending. -/
theorem claim_C9_witness :
    (SortNodes [c9b, c9a] SortField.sortPodName true).Pairwise
      (fun a b => a.name.data ≤ b.name.data)
    ∧ (SortPods [c9p2, c9p1] SortField.sortNodeCPU true).Pairwise
      (fun a b => a.name.data ≤ b.name.data) := by
  have h1 := (claim_C9_unknown_field [c9b, c9a] [] SortField.sortPodName
    (by decide) (by decide)).1 (by decide)
  have h2 := (claim_C9_unknown_field [] [c9p2, c9p1] SortField.sortNodeCPU
    (by decide) (by decide)).2 (by decide)
  exact ⟨h1.2.1, h2.2.1⟩


/-! ## Claims C7 and C8: filter and limit -/

/-- FilterPods coincides with a declarative `List.filter`: a pod is kept
exactly when the namespace filter is empty or matches, and system
namespaces are shown or the pod is not in one. -/
theorem filterPods_eq (ns : String) (showSystem : Bool) :
    ∀ pods : List Pod, FilterPods pods ns showSystem =
      pods.filter
        (fun p => (ns == "" || p.ns == ns) && (showSystem || !IsSystemNamespace p.ns)) := by
  intro pods
  induction pods with
  | nil => rfl
  | cons p rest ih =>
    simp only [FilterPods, List.filter_cons]
    cases h1 : (ns == "") <;> cases h2 : (p.ns == ns) <;>
      cases h3 : IsSystemNamespace p.ns <;> cases showSystem <;>
        simp [bne, h1, h2, h3, ih]

/-- IsSystemNamespace holds exactly on the three kube-reserved names of
the built-in table ("default" is listed there with value false and is
not a system namespace). -/
theorem isSystemNamespace_iff (s : String) :
    IsSystemNamespace s = true ↔ s ∈ ["kube-system", "kube-public", "kube-node-lease"] := by
  by_cases h1 : s = "kube-system"
  · rw [h1]; decide
  by_cases h2 : s = "kube-public"
  · rw [h2]; decide
  by_cases h3 : s = "kube-node-lease"
  · rw [h3]; decide
  by_cases h4 : s = "default"
  · rw [h4]; decide
  have e1 : ("kube-system" == s) = false := beq_eq_false_iff_ne.mpr (fun h => h1 h.symm)
  have e2 : ("kube-public" == s) = false := beq_eq_false_iff_ne.mpr (fun h => h2 h.symm)
  have e3 : ("kube-node-lease" == s) = false := beq_eq_false_iff_ne.mpr (fun h => h3 h.symm)
  have e4 : ("default" == s) = false := beq_eq_false_iff_ne.mpr (fun h => h4 h.symm)
  simp [IsSystemNamespace, SystemNamespaces, List.find?, e1, e2, e3, e4, h1, h2, h3]

/-- Claim C7: FilterPods keeps a workload exactly when (namespace filter
empty or equal to the workload's namespace) and (system namespaces shown
or the workload's namespace not in the built-in system set); with an
empty filter, hiding system namespaces excludes exactly the pods whose
namespace is in that fixed set, and showing them excludes nothing. -/
theorem claim_C7_filter (pods : List Pod) (ns : String) (showSystem : Bool) (s : String) :
    FilterPods pods ns showSystem =
      pods.filter
        (fun p => (ns == "" || p.ns == ns) && (showSystem || !IsSystemNamespace p.ns))
    ∧ FilterPods pods "" false = pods.filter (fun p => !IsSystemNamespace p.ns)
    ∧ FilterPods pods "" true = pods
    ∧ (IsSystemNamespace s = true ↔ s ∈ ["kube-system", "kube-public", "kube-node-lease"]) := by
  refine ⟨filterPods_eq ns showSystem pods, ?_, ?_, isSystemNamespace_iff s⟩
  · rw [filterPods_eq]
    apply List.filter_congr
    intro a _
    simp
  · rw [filterPods_eq]
    have h : ∀ a : Pod, a ∈ pods →
        ((("" : String) == "" || a.ns == "") && (true || !IsSystemNamespace a.ns)) = true :=
      fun a _ => by simp
    rw [List.filter_congr h, List.filter_true]

/-- Fixture pod for the C8 witness. -/
def c8a : Pod := { name := "w1" }

/-- Second fixture pod for the C8 witness. -/
def c8b : Pod := { name := "w2" }

/-- Claim C8: LimitPods returns the first min(n, length) pods in input
order, and is the identity when n is at least the length. -/
theorem claim_C8_limit (pods : List Pod) (n : Nat) :
    LimitPods pods n = pods.take n
    ∧ (LimitPods pods n).length = min n pods.length
    ∧ (pods.length ≤ n → LimitPods pods n = pods) := by
  have h1 : LimitPods pods n = pods.take n := by
    rw [LimitPods]
    by_cases h : pods.length ≤ n
    · rw [if_pos h, List.take_of_length_le h]
    · rw [if_neg h]
  refine ⟨h1, ?_, ?_⟩
  · rw [h1, List.length_take]
  · intro h
    rw [LimitPods, if_pos h]

/-- Claim C8, witness: LimitPods at a concrete two-pod list, with a
limit beyond the length (no-op) and a limit inside it (truncation). -/
theorem claim_C8_witness :
    LimitPods [c8a, c8b] 5 = [c8a, c8b] ∧ LimitPods [c8a, c8b] 1 = [c8a] := by
  constructor
  · exact (claim_C8_limit [c8a, c8b] 5).2.2 (by decide)
  · rw [(claim_C8_limit [c8a, c8b] 1).1]
    decide


/-! ## Collector embedding (internal/metrics/collector.go) -/

/-- ClusterInfo from internal/models (the Go `Namespace` field is
rendered `ns`). -/
structure ClusterInfo where
  name : String := ""
  context : String := ""
  server : String := ""
  ns : String := ""
deriving DecidableEq

/-- A Go error value as it flows through the collector: either a raw
error from a client read, or a `fmt.Errorf("...: %w", err)` wrapper. -/
inductive KErr where
  | api : String → KErr
  | wrap : String → KErr → KErr
deriving DecidableEq

/-- ClusterMetrics from internal/models; the timestamp is an opaque
tick. -/
structure ClusterMetrics where
  timestamp : Int := 0
  clusterInfo : ClusterInfo := {}
  nodes : List Node := []
  pods : List Pod := []
  error : Option KErr := none
  totalCPUCapacity : Int := 0
  totalCPUUsed : Int := 0
  totalCPUCores : Int := 0
  totalMemoryCapacity : Int := 0
  totalMemoryUsed : Int := 0
  totalDiskCapacity : Int := 0
  totalDiskUsed : Int := 0
  totalGPUs : Int := 0
  totalPods : Nat := 0
  totalNodes : Nat := 0
  readyNodes : Nat := 0
deriving DecidableEq

/-- corev1.ConditionStatus. -/
inductive ConditionStatus where
  | condTrue
  | condFalse
  | condUnknown
deriving DecidableEq

/-- The node condition types the collector inspects; all others are
`other`. -/
inductive ConditionType where
  | ready
  | memoryPressure
  | diskPressure
  | pidPressure
  | networkUnavailable
  | other (s : String)
deriving DecidableEq

/-- One entry of a node's status conditions. -/
structure K8sNodeCondition where
  type : ConditionType := .other ""
  status : ConditionStatus := .condUnknown
deriving DecidableEq

/-- The fields of a corev1 resource list that the collector reads:
`Cpu().MilliValue()` and `Memory().Value()` yield 0 when the key is
absent; the ephemeral-storage and nvidia.com/gpu entries are read with
explicit presence checks, hence optional. -/
structure K8sResourceList where
  cpuMilli : Int := 0
  memoryBytes : Int := 0
  ephemeralStorage : Option Int := none
  gpu : Option Int := none
deriving DecidableEq

/-- The fields of a corev1.Node that the collector reads. -/
structure K8sNode where
  name : String := ""
  labels : List (String × String) := []
  capacity : K8sResourceList := {}
  allocatable : K8sResourceList := {}
  conditions : List K8sNodeCondition := []
deriving DecidableEq

/-- nodeMetricData from collector.go. -/
structure nodeMetricData where
  cpu : Int := 0
  memory : Int := 0
deriving DecidableEq

/-- One item of the node-metrics list returned by the metrics API. -/
structure NodeMetricsItem where
  name : String := ""
  cpuMilli : Int := 0
  memoryBytes : Int := 0
deriving DecidableEq

/-- corev1.PodPhase; phases other than the four named ones map to the
default branch of getPodStatus. -/
inductive PodPhase where
  | running
  | pending
  | succeeded
  | failed
  | other (s : String)
deriving DecidableEq

/-- Per-container usage inside a pod-metrics item. -/
structure ContainerUsage where
  cpuMilli : Int := 0
  memoryBytes : Int := 0
deriving DecidableEq

/-- One item of the pod-metrics list (namespace, name, containers). -/
structure PodMetricsItem where
  ns : String := ""
  name : String := ""
  containers : List ContainerUsage := []
deriving DecidableEq

/-- A container status as read by the collector (restart count only,
a Go int32). -/
structure K8sContainerStatus where
  restartCount : Int := 0
deriving DecidableEq

/-- The fields of a corev1.Pod that the collector reads.
`containerCount` stands for `len(Spec.Containers)`: only the length of
that list is ever read. -/
structure K8sPod where
  ns : String := ""
  name : String := ""
  nodeName : String := ""
  phase : PodPhase := .other ""
  containerCount : Nat := 0
  containerStatuses : List K8sContainerStatus := []
deriving DecidableEq

/-- Build the `map[string]nodeMetricData` of fetchNodeMetrics; later
items overwrite earlier ones with the same name, as in a Go map. -/
def buildNodeMetricsMap (items : List NodeMetricsItem) : String → Option nodeMetricData :=
  items.foldl
    (fun m it => fun k => if k = it.name then some ⟨it.cpuMilli, it.memoryBytes⟩ else m k)
    (fun _ => none)

/-- Sum of the container CPU usages of a pod-metrics item. -/
def podMetricsCPU (pm : PodMetricsItem) : Int :=
  pm.containers.foldl (fun acc c => acc + c.cpuMilli) 0

/-- Sum of the container memory usages of a pod-metrics item. -/
def podMetricsMemory (pm : PodMetricsItem) : Int :=
  pm.containers.foldl (fun acc c => acc + c.memoryBytes) 0

/-- Build the pod-metrics map of fetchPodMetrics, keyed by
"namespace/name". -/
def buildPodMetricsMap (items : List PodMetricsItem) : String → Option (Int × Int) :=
  items.foldl
    (fun m pm => fun k =>
      if k = pm.ns ++ "/" ++ pm.name then some (podMetricsCPU pm, podMetricsMemory pm)
      else m k)
    (fun _ => none)

/-- getNodeStatus from collector.go: scan the conditions for the first
NodeReady entry; Ready when its status is "True", NotReady otherwise,
Unknown when no NodeReady condition is present. -/
def getNodeStatus : List K8sNodeCondition → NodeStatus
  | [] => .unknown
  | c :: rest =>
    if c.type = .ready then
      if c.status = .condTrue then .ready else .notReady
    else getNodeStatus rest

/-- getNodeConditions from collector.go: set each pressure flag when the
matching condition is reported active. -/
def getNodeConditions (conditions : List K8sNodeCondition) : NodeConditions :=
  conditions.foldl
    (fun acc c =>
      if c.status ≠ .condTrue then acc
      else
        match c.type with
        | .memoryPressure => { acc with memoryPressure := true }
        | .diskPressure => { acc with diskPressure := true }
        | .pidPressure => { acc with pidPressure := true }
        | .networkUnavailable => { acc with networkUnavail := true }
        | _ => acc)
    {}

/-- countPodsOnNode from collector.go: the number of pods of the cached
previous metrics whose nodeName matches; 0 when nothing is cached yet. -/
def countPodsOnNode (lastMetrics : Option ClusterMetrics) (nodeName : String) : Nat :=
  match lastMetrics with
  | none => 0
  | some m => (m.pods.filter (fun p => p.nodeName == nodeName)).length

/-- Go map lookup on a node's labels. -/
def lookupLabel (labels : List (String × String)) (k : String) : Option String :=
  (labels.find? (fun p => p.1 == k)).map (fun p => p.2)

/-- getGPUInfo from collector.go: the nvidia.com/gpu entry of capacity,
falling back to allocatable; nil when absent or zero; GPU memory parsed
from the nvidia.com/gpu.memory label and converted MiB to bytes.
`strconv.ParseInt` is modelled by `String.toInt?` (they agree on
in-range decimal integers; no claim depends on this field). -/
def getGPUInfo (n : K8sNode) : Option GPUInfo :=
  match (match n.capacity.gpu with
         | some q => some q
         | none => n.allocatable.gpu) with
  | none => none
  | some count =>
    if count = 0 then none
    else
      some
        { count := count
          memoryTotal :=
            (match lookupLabel n.labels "nvidia.com/gpu.memory" with
             | some memStr =>
               (match memStr.toInt? with
                | some mem => mem * 1024 * 1024
                | none => 0)
             | none => 0) }

/-- The per-node body of the mergeNodeData loop from collector.go. -/
def buildNode (lastMetrics : Option ClusterMetrics)
    (metrics : String → Option nodeMetricData) (n : K8sNode) : Node :=
  let cpuCap := n.capacity.cpuMilli
  let memCap := n.capacity.memoryBytes
  let diskCap :=
    (match n.capacity.ephemeralStorage with
     | some v => v
     | none => 0)
  let base : Node :=
    { name := n.name
      labels := n.labels
      status := getNodeStatus n.conditions
      cpu := { capacity := cpuCap }
      memory := { capacity := memCap }
      disk := { capacity := diskCap }
      conditions := getNodeConditions n.conditions
      podCount := countPodsOnNode lastMetrics n.name
      gpu := getGPUInfo n }
  match metrics n.name with
  | none => base
  | some m =>
    { base with
      cpu :=
        { current := m.cpu
          capacity := cpuCap
          percent := if cpuCap > 0 then (m.cpu : ℚ) / (cpuCap : ℚ) * 100 else 0 }
      memory :=
        { current := m.memory
          capacity := memCap
          percent := if memCap > 0 then (m.memory : ℚ) / (memCap : ℚ) * 100 else 0 } }

/-- mergeNodeData from collector.go. -/
def mergeNodeData (lastMetrics : Option ClusterMetrics)
    (nodes : List K8sNode) (metrics : String → Option nodeMetricData) : List Node :=
  nodes.map (buildNode lastMetrics metrics)

/-- getPodStatus from collector.go. -/
def getPodStatus : PodPhase → PodStatus
  | .running => .running
  | .pending => .pending
  | .succeeded => .succeeded
  | .failed => .failed
  | .other _ => .unknown

/-- Insert a string into a lexically sorted list. -/
def insertStr (x : String) : List String → List String
  | [] => [x]
  | y :: ys => if x.data ≤ y.data then x :: y :: ys else y :: insertStr x ys

/-- `sort.Strings` on a list of distinct strings. -/
def sortStrings : List String → List String
  | [] => []
  | x :: xs => insertStr x (sortStrings xs)

/-- The namespace list recorded by fetchPodMetrics: Go builds a set of
the pod namespaces and sorts its keys; equivalently, the sorted
deduplicated list. -/
def collectNamespaces (pods : List K8sPod) : List String :=
  sortStrings ((pods.map (fun p => p.ns)).dedup)

/-- fetchPodMetrics from collector.go, as a function of the two reads it
performs (the pod-metrics list, then the pod list).  Yields the built
pod models and the namespace list recorded as a side effect, or the
first failing read's error.  On either failure the namespace cache is
not touched. -/
def fetchPodMetrics (podMetricsRes : Except String (List PodMetricsItem))
    (podListRes : Except String (List K8sPod)) :
    Except String (List Pod × List String) :=
  match podMetricsRes with
  | .error e => .error e
  | .ok items =>
    let mm := buildPodMetricsMap items
    match podListRes with
    | .error e => .error e
    | .ok ps =>
      let result := ps.map (fun p =>
        let base : Pod :=
          { ns := p.ns
            name := p.name
            nodeName := p.nodeName
            status := getPodStatus p.phase
            containerCount := p.containerCount
            restartCount := p.containerStatuses.foldl (fun acc cs => acc + cs.restartCount) 0 }
        match mm (p.ns ++ "/" ++ p.name) with
        | some m => { base with cpu := m.1, memory := m.2 }
        | none => base)
      .ok (result, collectNamespaces ps)

/-- One node's contribution to the cluster aggregates (the loop body of
calculateAggregates). -/
def aggStep (acc : ClusterMetrics) (node : Node) : ClusterMetrics :=
  { acc with
    totalCPUCapacity := acc.totalCPUCapacity + node.cpu.capacity
    totalCPUUsed := acc.totalCPUUsed + node.cpu.current
    totalMemoryCapacity := acc.totalMemoryCapacity + node.memory.capacity
    totalMemoryUsed := acc.totalMemoryUsed + node.memory.current
    totalDiskCapacity := acc.totalDiskCapacity + node.disk.capacity
    totalDiskUsed := acc.totalDiskUsed + node.disk.current
    totalCPUCores := acc.totalCPUCores + node.cpu.capacity.tdiv 1000
    totalGPUs := acc.totalGPUs +
      (match node.gpu with
       | some g => g.count
       | none => 0)
    readyNodes := acc.readyNodes + (if node.status = .ready then 1 else 0) }

/-- calculateAggregates from collector.go: node and pod counts, then one
pass over the nodes summing capacities, usages, truncated core counts
(Go int64 division truncates toward zero: `Int.tdiv`), GPU counts and
ready nodes. -/
def calculateAggregates (m : ClusterMetrics) : ClusterMetrics :=
  m.nodes.foldl aggStep
    { m with totalNodes := m.nodes.length, totalPods := m.pods.length }

/-- The four reads Collect performs against the cluster API in one
cycle, given as the results the API returns. -/
structure Reads where
  nodesRes : Except String (List K8sNode)
  nodeMetricsRes : Except String (List NodeMetricsItem)
  podMetricsRes : Except String (List PodMetricsItem)
  podListRes : Except String (List K8sPod)

/-- The collector's mutable state: the cached last metrics and the
cached namespace list (the fields guarded by the mutex in Go). -/
structure CollectorState where
  lastMetrics : Option ClusterMetrics := none
  namespaces : List String := []
deriving DecidableEq

/-- What one Collect call produces: the new collector state, the
ClusterMetrics return value, and the Go error return value (raw,
unwrapped). -/
structure CollectResult where
  state : CollectorState
  metrics : ClusterMetrics
  err : Option String
deriving DecidableEq

/-- Collect from collector.go, as a state transition driven by one
cycle of read results, mirroring the Go control flow: a node-list
failure returns at once (cache untouched, raw error returned, wrapped
error on the returned metrics); a node-metrics failure stores a wrapped
error on the metrics and continues with a nil metrics map; a pod fetch
failure stores a wrapped error only when none is stored yet and
continues with a nil pod list; then aggregates are computed, the result
is installed in the cache, and a nil error is returned. -/
def Collect (st : CollectorState) (info : ClusterInfo) (now : Int) (r : Reads) :
    CollectResult :=
  let metrics0 : ClusterMetrics := { timestamp := now, clusterInfo := info }
  match r.nodesRes with
  | .error e =>
    { state := st
      metrics := { metrics0 with error := some (.wrap "failed to fetch nodes" (.api e)) }
      err := some e }
  | .ok nodes =>
    let nmResult : (String → Option nodeMetricData) × Option KErr :=
      (match r.nodeMetricsRes with
       | .error e => (fun _ => none, some (.wrap "failed to fetch node metrics" (.api e)))
       | .ok items => (buildNodeMetricsMap items, none))
    let mergedNodes := mergeNodeData st.lastMetrics nodes nmResult.1
    let podResult : List Pod × List String × Option String :=
      (match fetchPodMetrics r.podMetricsRes r.podListRes with
       | .error e => ([], st.namespaces, some e)
       | .ok pr => (pr.1, pr.2, none))
    let errField : Option KErr :=
      (match nmResult.2 with
       | some e => some e
       | none =>
         (match podResult.2.2 with
          | some e => some (.wrap "failed to fetch pod metrics" (.api e))
          | none => none))
    let built := calculateAggregates
      { metrics0 with nodes := mergedNodes, pods := podResult.1, error := errField }
    { state := { lastMetrics := some built, namespaces := podResult.2.1 }
      metrics := built
      err := none }

/-- GetLastMetrics from collector.go. -/
def GetLastMetrics (st : CollectorState) : Option ClusterMetrics :=
  st.lastMetrics

/-- GetNamespaces from collector.go. -/
def GetNamespaces (st : CollectorState) : List String :=
  st.namespaces


/-! ### Facts about calculateAggregates and buildNode -/

theorem foldl_aggStep_nodes :
    ∀ (l : List Node) (acc : ClusterMetrics), (l.foldl aggStep acc).nodes = acc.nodes := by
  intro l
  induction l with
  | nil => intro acc; rfl
  | cons x xs ih => intro acc; rw [List.foldl_cons]; exact ih (aggStep acc x)

theorem foldl_aggStep_pods :
    ∀ (l : List Node) (acc : ClusterMetrics), (l.foldl aggStep acc).pods = acc.pods := by
  intro l
  induction l with
  | nil => intro acc; rfl
  | cons x xs ih => intro acc; rw [List.foldl_cons]; exact ih (aggStep acc x)

theorem foldl_aggStep_error :
    ∀ (l : List Node) (acc : ClusterMetrics), (l.foldl aggStep acc).error = acc.error := by
  intro l
  induction l with
  | nil => intro acc; rfl
  | cons x xs ih => intro acc; rw [List.foldl_cons]; exact ih (aggStep acc x)

theorem foldl_aggStep_totalNodes :
    ∀ (l : List Node) (acc : ClusterMetrics), (l.foldl aggStep acc).totalNodes = acc.totalNodes := by
  intro l
  induction l with
  | nil => intro acc; rfl
  | cons x xs ih => intro acc; rw [List.foldl_cons]; exact ih (aggStep acc x)

theorem foldl_aggStep_totalPods :
    ∀ (l : List Node) (acc : ClusterMetrics), (l.foldl aggStep acc).totalPods = acc.totalPods := by
  intro l
  induction l with
  | nil => intro acc; rfl
  | cons x xs ih => intro acc; rw [List.foldl_cons]; exact ih (aggStep acc x)

theorem foldl_aggStep_cpuUsed :
    ∀ (l : List Node) (acc : ClusterMetrics),
      (l.foldl aggStep acc).totalCPUUsed
        = acc.totalCPUUsed + (l.map (fun nd => nd.cpu.current)).sum := by
  intro l
  induction l with
  | nil => intro acc; simp
  | cons x xs ih =>
    intro acc
    rw [List.foldl_cons, ih]
    simp [aggStep]
    ring

theorem foldl_aggStep_cpuCapacity :
    ∀ (l : List Node) (acc : ClusterMetrics),
      (l.foldl aggStep acc).totalCPUCapacity
        = acc.totalCPUCapacity + (l.map (fun nd => nd.cpu.capacity)).sum := by
  intro l
  induction l with
  | nil => intro acc; simp
  | cons x xs ih =>
    intro acc
    rw [List.foldl_cons, ih]
    simp [aggStep]
    ring

theorem foldl_aggStep_memUsed :
    ∀ (l : List Node) (acc : ClusterMetrics),
      (l.foldl aggStep acc).totalMemoryUsed
        = acc.totalMemoryUsed + (l.map (fun nd => nd.memory.current)).sum := by
  intro l
  induction l with
  | nil => intro acc; simp
  | cons x xs ih =>
    intro acc
    rw [List.foldl_cons, ih]
    simp [aggStep]
    ring

theorem foldl_aggStep_memCapacity :
    ∀ (l : List Node) (acc : ClusterMetrics),
      (l.foldl aggStep acc).totalMemoryCapacity
        = acc.totalMemoryCapacity + (l.map (fun nd => nd.memory.capacity)).sum := by
  intro l
  induction l with
  | nil => intro acc; simp
  | cons x xs ih =>
    intro acc
    rw [List.foldl_cons, ih]
    simp [aggStep]
    ring

theorem foldl_aggStep_diskUsed :
    ∀ (l : List Node) (acc : ClusterMetrics),
      (l.foldl aggStep acc).totalDiskUsed
        = acc.totalDiskUsed + (l.map (fun nd => nd.disk.current)).sum := by
  intro l
  induction l with
  | nil => intro acc; simp
  | cons x xs ih =>
    intro acc
    rw [List.foldl_cons, ih]
    simp [aggStep]
    ring

theorem foldl_aggStep_diskCapacity :
    ∀ (l : List Node) (acc : ClusterMetrics),
      (l.foldl aggStep acc).totalDiskCapacity
        = acc.totalDiskCapacity + (l.map (fun nd => nd.disk.capacity)).sum := by
  intro l
  induction l with
  | nil => intro acc; simp
  | cons x xs ih =>
    intro acc
    rw [List.foldl_cons, ih]
    simp [aggStep]
    ring

theorem foldl_aggStep_cpuCores :
    ∀ (l : List Node) (acc : ClusterMetrics),
      (l.foldl aggStep acc).totalCPUCores
        = acc.totalCPUCores + (l.map (fun nd => nd.cpu.capacity.tdiv 1000)).sum := by
  intro l
  induction l with
  | nil => intro acc; simp
  | cons x xs ih =>
    intro acc
    rw [List.foldl_cons, ih]
    simp [aggStep]
    ring

theorem foldl_aggStep_ready :
    ∀ (l : List Node) (acc : ClusterMetrics),
      (l.foldl aggStep acc).readyNodes
        = acc.readyNodes + (l.filter (fun nd => nd.status == NodeStatus.ready)).length := by
  intro l
  induction l with
  | nil => intro acc; simp
  | cons x xs ih =>
    intro acc
    rw [List.foldl_cons, ih]
    by_cases h : x.status = NodeStatus.ready <;>
      simp [aggStep, h, List.filter_cons] <;> omega

theorem calculateAggregates_nodes (m : ClusterMetrics) :
    (calculateAggregates m).nodes = m.nodes := by
  rw [calculateAggregates, foldl_aggStep_nodes]

theorem calculateAggregates_pods (m : ClusterMetrics) :
    (calculateAggregates m).pods = m.pods := by
  rw [calculateAggregates, foldl_aggStep_pods]

theorem calculateAggregates_error (m : ClusterMetrics) :
    (calculateAggregates m).error = m.error := by
  rw [calculateAggregates, foldl_aggStep_error]

theorem buildNode_name (lm : Option ClusterMetrics) (mm : String → Option nodeMetricData)
    (n : K8sNode) : (buildNode lm mm n).name = n.name := by
  cases h : mm n.name <;> simp [buildNode, h]

theorem buildNode_podCount (lm : Option ClusterMetrics) (mm : String → Option nodeMetricData)
    (n : K8sNode) : (buildNode lm mm n).podCount = countPodsOnNode lm n.name := by
  cases h : mm n.name <;> simp [buildNode, h]

theorem buildNode_cpu_capacity (lm : Option ClusterMetrics)
    (mm : String → Option nodeMetricData) (n : K8sNode) :
    (buildNode lm mm n).cpu.capacity = n.capacity.cpuMilli := by
  cases h : mm n.name <;> simp [buildNode, h]


/-! ## Claims C1, C5, C6, C10: Collect control flow -/

/-- Claim C5: when the node-descriptor read fails, Collect returns the
raw error, does not touch the collector state, and GetLastMetrics
afterwards returns exactly what it returned before the cycle. -/
theorem claim_C5_fatal_node_failure (st : CollectorState) (info : ClusterInfo) (now : Int)
    (r : Reads) (e : String) (he : r.nodesRes = Except.error e) :
    (Collect st info now r).err = some e
    ∧ (Collect st info now r).state = st
    ∧ GetLastMetrics (Collect st info now r).state = GetLastMetrics st := by
  refine ⟨?_, ?_, ?_⟩ <;> simp [Collect, he, GetLastMetrics]

/-- Fixture reads for the C5 witness: the node-list read fails. -/
def c5Reads : Reads :=
  { nodesRes := .error "node list failed"
    nodeMetricsRes := .ok []
    podMetricsRes := .ok []
    podListRes := .ok [] }

/-- Claim C5, witness: a concrete failed node read leaves a fresh
collector state untouched and surfaces the raw error. -/
theorem claim_C5_witness :
    (Collect {} {} 0 c5Reads).err = some "node list failed"
    ∧ (Collect {} {} 0 c5Reads).state = {} := by
  have h := claim_C5_fatal_node_failure {} {} 0 c5Reads "node list failed" rfl
  exact ⟨h.1, h.2.1⟩

/-- Claim C6: when both non-fatal reads of a cycle fail (the node
usage-sample read and the pod usage-sample read), the error field of the
produced Snapshot holds the wrapped first error — the node-metrics one —
and the later pod failure does not overwrite it. -/
theorem claim_C6_first_error_wins (st : CollectorState) (info : ClusterInfo) (now : Int)
    (r : Reads) (nodes : List K8sNode) (e1 e2 : String)
    (hn : r.nodesRes = Except.ok nodes)
    (hm : r.nodeMetricsRes = Except.error e1)
    (hp : r.podMetricsRes = Except.error e2) :
    (Collect st info now r).metrics.error
      = some (KErr.wrap "failed to fetch node metrics" (KErr.api e1)) := by
  simp [Collect, hn, hm, hp, calculateAggregates_error]

/-- Fixture reads for the C6 witness: both usage-sample reads fail. -/
def c6Reads : Reads :=
  { nodesRes := .ok []
    nodeMetricsRes := .error "metrics api down for nodes"
    podMetricsRes := .error "metrics api down for pods"
    podListRes := .ok [] }

/-- Claim C6, witness: with both usage-sample reads failing, the
snapshot retains the node-metrics error, wrapped. -/
theorem claim_C6_witness :
    (Collect {} {} 0 c6Reads).metrics.error
      = some (KErr.wrap "failed to fetch node metrics"
          (KErr.api "metrics api down for nodes")) :=
  claim_C6_first_error_wins {} {} 0 c6Reads [] "metrics api down for nodes"
    "metrics api down for pods" rfl rfl rfl

/-- Fixture reads for the C1 counterexample and witness: node reads
succeed, the workload-descriptor (pod list) read fails. -/
def c1Reads : Reads :=
  { nodesRes := .ok [{ name := "n1" }]
    nodeMetricsRes := .ok []
    podMetricsRes := .ok []
    podListRes := .error "pod list failed" }

/-- Claim C1, counterexample to the claim as stated: with the pod-list
(workload-descriptor) read failing and the node reads succeeding,
Collect does NOT abort — it returns a nil error and installs a Snapshot
in the Store. -/
theorem claim_C1_counterexample :
    (Collect {} {} 0 c1Reads).err = none
    ∧ (Collect {} {} 0 c1Reads).state.lastMetrics.isSome = true :=
  ⟨rfl, rfl⟩

/-- Claim C1 (amended): a workload (pod) fetch failure while the node
read succeeds is treated as NON-fatal: Collect returns a nil error,
installs the produced Snapshot in the Store, and that Snapshot carries
an empty workload list and a non-nil error field. -/
theorem claim_C1_workload_failure_nonfatal (st : CollectorState) (info : ClusterInfo)
    (now : Int) (r : Reads) (nodes : List K8sNode) (e : String)
    (hn : r.nodesRes = Except.ok nodes)
    (hp : fetchPodMetrics r.podMetricsRes r.podListRes = Except.error e) :
    (Collect st info now r).err = none
    ∧ (Collect st info now r).metrics.pods = []
    ∧ (Collect st info now r).state.lastMetrics = some (Collect st info now r).metrics
    ∧ (Collect st info now r).metrics.error ≠ none := by
  refine ⟨?_, ?_, ?_, ?_⟩
  · simp [Collect, hn]
  · simp [Collect, hn, hp, calculateAggregates_pods]
  · simp [Collect, hn]
  · cases hm : r.nodeMetricsRes <;>
      simp [Collect, hn, hp, hm, calculateAggregates_error]

/-- Claim C1, witness for the amended theorem at the concrete input of
the counterexample. -/
theorem claim_C1_witness :
    (Collect {} {} 0 c1Reads).err = none
    ∧ (Collect {} {} 0 c1Reads).metrics.pods = [] := by
  have h := claim_C1_workload_failure_nonfatal {} {} 0 c1Reads [{ name := "n1" }]
    "pod list failed" rfl rfl
  exact ⟨h.1, h.2.1⟩

/-- Claim C10: in any cycle whose node read succeeds, every node of the
produced Snapshot carries a podCount computed from the Snapshot that the
Store held at the start of the call (the previous cycle), counting its
pods whose nodeName matches — never the workload list being built in the
same cycle; on the very first Collect (empty Store) every podCount is
zero. -/
theorem claim_C10_podcount_previous (st : CollectorState) (info : ClusterInfo) (now : Int)
    (r : Reads) (nodes : List K8sNode) (hn : r.nodesRes = Except.ok nodes) :
    (∀ node ∈ (Collect st info now r).metrics.nodes,
      node.podCount =
        (match GetLastMetrics st with
         | none => 0
         | some prev => (prev.pods.filter (fun p => p.nodeName == node.name)).length))
    ∧ (GetLastMetrics st = none →
        ∀ node ∈ (Collect st info now r).metrics.nodes, node.podCount = 0) := by
  have hmain : ∀ node ∈ (Collect st info now r).metrics.nodes,
      node.podCount =
        (match GetLastMetrics st with
         | none => 0
         | some prev => (prev.pods.filter (fun p => p.nodeName == node.name)).length) := by
    intro node hmem
    simp only [Collect, hn, calculateAggregates_nodes] at hmem
    rw [mergeNodeData] at hmem
    obtain ⟨d, hd, hEq⟩ := List.mem_map.mp hmem
    rw [← hEq, buildNode_podCount, buildNode_name]
    cases hlm : st.lastMetrics <;> simp [countPodsOnNode, GetLastMetrics, hlm]
  refine ⟨hmain, ?_⟩
  intro hnone node hmem
  rw [hmain node hmem, hnone]

/-- Fixture previous-cycle state for the C10 witness: the Store holds a
snapshot with two pods on node n1 and one on node n2. -/
def c10Prev : ClusterMetrics :=
  { pods := [{ name := "p1", nodeName := "n1" }, { name := "p2", nodeName := "n1" },
             { name := "p3", nodeName := "n2" }] }

/-- Fixture reads for the C10 witness. -/
def c10Reads : Reads :=
  { nodesRes := .ok [{ name := "n1" }]
    nodeMetricsRes := .ok []
    podMetricsRes := .ok []
    podListRes := .ok [] }

/-- Claim C10, witness: with the previous snapshot holding two pods on
n1, the node n1 built by the next cycle reports podCount 2 even though
the new cycle's own pod list is empty. -/
theorem claim_C10_witness :
    ∃ node ∈ (Collect { lastMetrics := some c10Prev } {} 0 c10Reads).metrics.nodes,
      node.podCount = 2 := by
  have h := (claim_C10_podcount_previous { lastMetrics := some c10Prev } {} 0 c10Reads
    [{ name := "n1" }] rfl).1
  have hmem : buildNode (some c10Prev) (buildNodeMetricsMap []) { name := "n1" }
      ∈ (Collect { lastMetrics := some c10Prev } {} 0 c10Reads).metrics.nodes := by
    decide
  refine ⟨_, hmem, ?_⟩
  rw [h _ hmem]
  rw [buildNode_name]
  decide


/-! ## Claims C3 and C4: percentages and totals -/

/-- Claim C3: every node built by the collector satisfies the safe
percentage invariant for each of its ResourceUsage values: percent is
exactly current/capacity*100 when capacity is positive and 0 otherwise
(in particular 0 when capacity = 0), is never negative for non-negative
usage samples, and is not clamped (the equation is exact). -/
theorem claim_C3_percent (lm : Option ClusterMetrics) (mm : String → Option nodeMetricData)
    (nodes : List K8sNode)
    (hnn : ∀ name d, mm name = some d → 0 ≤ d.cpu ∧ 0 ≤ d.memory) :
    ∀ node ∈ mergeNodeData lm nodes mm,
      (node.cpu.percent =
        if 0 < node.cpu.capacity then
          (node.cpu.current : ℚ) / (node.cpu.capacity : ℚ) * 100 else 0)
      ∧ (node.memory.percent =
        if 0 < node.memory.capacity then
          (node.memory.current : ℚ) / (node.memory.capacity : ℚ) * 100 else 0)
      ∧ (node.disk.percent =
        if 0 < node.disk.capacity then
          (node.disk.current : ℚ) / (node.disk.capacity : ℚ) * 100 else 0)
      ∧ (node.cpu.capacity = 0 → node.cpu.percent = 0)
      ∧ 0 ≤ node.cpu.percent ∧ 0 ≤ node.memory.percent ∧ 0 ≤ node.disk.percent := by
  intro node hmem
  rw [mergeNodeData] at hmem
  obtain ⟨d, hd, hEq⟩ := List.mem_map.mp hmem
  subst hEq
  cases hmd : mm d.name with
  | none =>
    refine ⟨?_, ?_, ?_, ?_, ?_, ?_, ?_⟩ <;> simp [buildNode, hmd]
  | some m =>
    obtain ⟨hc, hm2⟩ := hnn d.name m hmd
    refine ⟨?_, ?_, ?_, ?_, ?_, ?_, ?_⟩
    · simp [buildNode, hmd]
    · simp [buildNode, hmd]
    · simp [buildNode, hmd]
    · intro hcap
      simp [buildNode, hmd] at hcap ⊢
      simp [hcap]
    · simp only [buildNode, hmd]
      by_cases hpos : d.capacity.cpuMilli > 0
      · rw [if_pos hpos]
        have h1 : (0:ℚ) ≤ (m.cpu : ℚ) := by exact_mod_cast hc
        have h2 : (0:ℚ) ≤ (d.capacity.cpuMilli : ℚ) := by exact_mod_cast le_of_lt hpos
        exact mul_nonneg (div_nonneg h1 h2) (by norm_num)
      · rw [if_neg hpos]
    · simp only [buildNode, hmd]
      by_cases hpos : d.capacity.memoryBytes > 0
      · rw [if_pos hpos]
        have h1 : (0:ℚ) ≤ (m.memory : ℚ) := by exact_mod_cast hm2
        have h2 : (0:ℚ) ≤ (d.capacity.memoryBytes : ℚ) := by exact_mod_cast le_of_lt hpos
        exact mul_nonneg (div_nonneg h1 h2) (by norm_num)
      · rw [if_neg hpos]
    · simp [buildNode, hmd]

/-- Fixture node descriptor for the C3 witness: 4000 milli-cores of CPU
capacity. -/
def c3Node : K8sNode := { name := "n1", capacity := { cpuMilli := 4000, memoryBytes := 8192 } }

/-- Fixture node usage map for the C3 witness: 1000 milli-cores in use
on n1. -/
def c3Map : String → Option nodeMetricData :=
  fun k => if k = "n1" then some { cpu := 1000, memory := 2048 } else none

/-- Claim C3, witness: capacity.cpuMilli 4000 with a usage sample of
1000 milli-cores yields cpu.percent = 25, and the percentage is
non-negative. -/
theorem claim_C3_witness :
    (buildNode none c3Map c3Node).cpu.percent = 25
      ∧ 0 ≤ (buildNode none c3Map c3Node).cpu.percent := by
  have h := claim_C3_percent none c3Map [c3Node]
    (by
      intro name d hd
      by_cases hn : name = "n1"
      · rw [c3Map, if_pos hn] at hd
        injection hd with hd2
        rw [← hd2]
        exact ⟨by decide, by decide⟩
      · rw [c3Map, if_neg hn] at hd
        exact Option.noConfusion hd)
    (buildNode none c3Map c3Node)
    (by rw [mergeNodeData]; exact List.mem_map.mpr ⟨c3Node, by decide, rfl⟩)
  refine ⟨?_, h.2.2.2.2.1⟩
  rw [h.1]
  have hcap : (buildNode none c3Map c3Node).cpu.capacity = 4000 := by
    rw [buildNode_cpu_capacity]
    rfl
  have hcur : (buildNode none c3Map c3Node).cpu.current = 1000 := by
    simp [buildNode, c3Map, c3Node]
  rw [hcap, hcur]
  norm_num

/-- Go int64 division truncates toward zero; on non-negative operands
this agrees with floor division. -/
theorem tdiv_eq_fdiv_of_nonneg (a : Int) (h : 0 ≤ a) : a.tdiv 1000 = a.fdiv 1000 := by
  obtain ⟨n, rfl⟩ := Int.eq_ofNat_of_zero_le h
  cases n <;> rfl

/-- On nodes with non-negative descriptor CPU capacities, the truncated
per-node core counts summed by the collector equal the floored ones the
spec describes. -/
theorem mergeNodeData_cores (lm : Option ClusterMetrics)
    (mm : String → Option nodeMetricData) (ks : List K8sNode)
    (h : ∀ d ∈ ks, 0 ≤ d.capacity.cpuMilli) :
    ((mergeNodeData lm ks mm).map (fun nd => nd.cpu.capacity.tdiv 1000)).sum
      = ((mergeNodeData lm ks mm).map (fun nd => Int.fdiv nd.cpu.capacity 1000)).sum := by
  apply congrArg List.sum
  apply List.map_congr_left
  intro nd hnd
  rw [mergeNodeData] at hnd
  obtain ⟨d, hd, hEq⟩ := List.mem_map.mp hnd
  have : nd.cpu.capacity = d.capacity.cpuMilli := by rw [← hEq, buildNode_cpu_capacity]
  rw [this]
  exact tdiv_eq_fdiv_of_nonneg _ (h d hd)

/-- Claim C4: every Snapshot produced by Collect has totals equal to
the sums over its own node and workload lists: used/capacity totals for
CPU, memory and disk are the per-node sums, node and workload counts are
the list lengths, readyNodeCount counts the Ready nodes, and (for
non-negative descriptor capacities) cpuCoreCount is the per-node
floor(capacityMilli/1000) summed — all computed from the same snapshot,
never across cycles. -/
theorem claim_C4_totals (st : CollectorState) (info : ClusterInfo) (now : Int) (r : Reads)
    (hcap : ∀ ks, r.nodesRes = Except.ok ks → ∀ d ∈ ks, 0 ≤ d.capacity.cpuMilli) :
    ((Collect st info now r).metrics.totalCPUUsed
      = (((Collect st info now r).metrics.nodes).map (fun nd => nd.cpu.current)).sum)
    ∧ ((Collect st info now r).metrics.totalCPUCapacity
      = (((Collect st info now r).metrics.nodes).map (fun nd => nd.cpu.capacity)).sum)
    ∧ ((Collect st info now r).metrics.totalMemoryUsed
      = (((Collect st info now r).metrics.nodes).map (fun nd => nd.memory.current)).sum)
    ∧ ((Collect st info now r).metrics.totalMemoryCapacity
      = (((Collect st info now r).metrics.nodes).map (fun nd => nd.memory.capacity)).sum)
    ∧ ((Collect st info now r).metrics.totalDiskUsed
      = (((Collect st info now r).metrics.nodes).map (fun nd => nd.disk.current)).sum)
    ∧ ((Collect st info now r).metrics.totalDiskCapacity
      = (((Collect st info now r).metrics.nodes).map (fun nd => nd.disk.capacity)).sum)
    ∧ ((Collect st info now r).metrics.totalNodes
      = ((Collect st info now r).metrics.nodes).length)
    ∧ ((Collect st info now r).metrics.totalPods
      = ((Collect st info now r).metrics.pods).length)
    ∧ ((Collect st info now r).metrics.readyNodes
      = (((Collect st info now r).metrics.nodes).filter
          (fun nd => nd.status == NodeStatus.ready)).length)
    ∧ ((Collect st info now r).metrics.totalCPUCores
      = (((Collect st info now r).metrics.nodes).map
          (fun nd => Int.fdiv nd.cpu.capacity 1000)).sum) := by
  cases hr : r.nodesRes with
  | error e =>
    refine ⟨?_, ?_, ?_, ?_, ?_, ?_, ?_, ?_, ?_, ?_⟩ <;> simp [Collect, hr]
  | ok ks =>
    refine ⟨?_, ?_, ?_, ?_, ?_, ?_, ?_, ?_, ?_, ?_⟩
    · simp only [Collect, hr]
      rw [calculateAggregates_nodes, calculateAggregates, foldl_aggStep_cpuUsed]
      simp
    · simp only [Collect, hr]
      rw [calculateAggregates_nodes, calculateAggregates, foldl_aggStep_cpuCapacity]
      simp
    · simp only [Collect, hr]
      rw [calculateAggregates_nodes, calculateAggregates, foldl_aggStep_memUsed]
      simp
    · simp only [Collect, hr]
      rw [calculateAggregates_nodes, calculateAggregates, foldl_aggStep_memCapacity]
      simp
    · simp only [Collect, hr]
      rw [calculateAggregates_nodes, calculateAggregates, foldl_aggStep_diskUsed]
      simp
    · simp only [Collect, hr]
      rw [calculateAggregates_nodes, calculateAggregates, foldl_aggStep_diskCapacity]
      simp
    · simp only [Collect, hr]
      rw [calculateAggregates_nodes, calculateAggregates, foldl_aggStep_totalNodes]
    · simp only [Collect, hr]
      rw [calculateAggregates_pods, calculateAggregates, foldl_aggStep_totalPods]
    · simp only [Collect, hr]
      rw [calculateAggregates_nodes, calculateAggregates, foldl_aggStep_ready]
      simp
    · simp only [Collect, hr]
      rw [calculateAggregates_nodes, calculateAggregates, foldl_aggStep_cpuCores]
      simp only [zero_add]
      exact mergeNodeData_cores st.lastMetrics _ ks (hcap ks hr)

/-- Fixture reads for the C4 witness: one node with 2500 milli-cores of
capacity and one usage sample of 1200 milli-cores. -/
def c4Reads : Reads :=
  { nodesRes := .ok [{ name := "n1", capacity := { cpuMilli := 2500, memoryBytes := 8 } }]
    nodeMetricsRes := .ok [{ name := "n1", cpuMilli := 1200, memoryBytes := 4 }]
    podMetricsRes := .ok []
    podListRes := .ok [] }

/-- Claim C4, witness: the totals equations at a concrete one-node
cycle. -/
theorem claim_C4_witness :
    ((Collect {} {} 0 c4Reads).metrics.totalCPUUsed
      = (((Collect {} {} 0 c4Reads).metrics.nodes).map (fun nd => nd.cpu.current)).sum)
    ∧ ((Collect {} {} 0 c4Reads).metrics.totalCPUCores
      = (((Collect {} {} 0 c4Reads).metrics.nodes).map
          (fun nd => Int.fdiv nd.cpu.capacity 1000)).sum) := by
  have h := claim_C4_totals {} {} 0 c4Reads
    (by
      intro ks hks d hd
      simp only [c4Reads] at hks
      injection hks with h2
      rw [← h2] at hd
      simp at hd
      rw [hd]
      decide)
  exact ⟨h.1, h.2.2.2.2.2.2.2.2.2⟩

end Ktop
